import Mathlib

/-!
Verification development for the Bindu Task Execution Core.

The repository ships the documentation of the core (state machine,
checkpoint subsystem, streaming pipeline, circuit breaker) together with
the JavaScript client code.  The Python modules implementing the core
(`bindu/utils/circuit_breaker.py`, `bindu/utils/retry.py`, the worker
pipeline) are not part of the source tree, so those components are
modelled here from the specification and from the in-tree documentation
(`docs/STREAMING.md`, `FEATURE_CIRCUIT_BREAKER.md`, the pause/resume and
circuit-breaker reports).  The task-polling client (`TaskPoller` in the
static JS API client) is present in the tree and is embedded directly.
-/

namespace Bindu

/-- Modelled from the spec: task lifecycle states (§4.1).  The state
machine module itself is absent from the source tree; states are listed
in the spec and in the pause/resume report. -/
inductive TaskState
  | submitted
  | working
  | inputRequired
  | completed
  | failed
  | canceled
  | rejected
  | suspended
  | resumed
deriving DecidableEq, Repr, Fintype

/-- Modelled from the spec: terminal states admit no further transition. -/
def isTerminal : TaskState → Bool
  | .completed => true
  | .failed => true
  | .canceled => true
  | .rejected => true
  | _ => false

/-- Modelled from the spec: states from which a pause request is legal. -/
def isPausable : TaskState → Bool
  | .submitted => true
  | .working => true
  | .inputRequired => true
  | _ => false

/-- Modelled from the spec: the legal transition edges of §4.1. -/
def legalEdge : TaskState → TaskState → Bool
  | .submitted, .working => true
  | .working, .completed => true
  | .working, .failed => true
  | .working, .inputRequired => true
  | .inputRequired, .working => true
  | s, .suspended => isPausable s
  | .suspended, .resumed => true
  | .resumed, .working => true
  | s, .canceled => !(isTerminal s)
  | _, _ => false

/-- A message in a task history: a role and opaque text parts,
carried uninterpreted by the core. -/
structure Message where
  role : String
  text : String
deriving DecidableEq, Repr

/-- A named output produced by a task.  All chunks of one stream share
one artifact identifier. -/
structure Artifact where
  artifact_id : Nat
  name : String
  text : String
deriving DecidableEq, Repr

/-- Modelled from the spec: the checkpoint stored in
`metadata.checkpoint` when a task is paused. -/
structure Checkpoint where
  paused_from_state : TaskState
  message_history : List Message
  artifacts : List Artifact
  paused_at : Nat
deriving DecidableEq, Repr

/-- The task record persisted by the storage contract.  The open
metadata map is represented by its only structured component used by the
core, the optional checkpoint. -/
structure Task where
  id : Nat
  context_id : Nat
  state : TaskState
  history : List Message
  artifacts : List Artifact
  checkpoint : Option Checkpoint
deriving DecidableEq, Repr

/-- The typed error taxonomy surfaced by the core for lifecycle
operations. -/
inductive TaskError
  | taskNotPausable (s : TaskState)
  | taskNotResumable (s : TaskState)
  | illegalTransition (src target : TaskState)
deriving DecidableEq, Repr

/-- Modelled from the spec: a state transition attempt.  A legal edge
yields the updated record; an illegal one yields a typed error and no
updated record is produced (the stored task is unchanged). -/
def applyTransition (t : Task) (target : TaskState) : Except TaskError Task :=
  if legalEdge t.state target then
    .ok { t with state := target }
  else
    .error (.illegalTransition t.state target)

/-- Modelled from the spec: `pause(task_id)` — validate the task is in a
pausable state, build a checkpoint from the in-flight state, persist it
into metadata and move to `suspended` in one operation. -/
def pause_task (t : Task) (now : Nat) : Except TaskError Task :=
  if isPausable t.state then
    .ok { t with
          state := .suspended,
          checkpoint := some ⟨t.state, t.history, t.artifacts, now⟩ }
  else
    .error (.taskNotPausable t.state)

/-- Modelled from the spec: `resume(task_id)` — validate the task is
`suspended`, transition to `resumed` and clear the checkpoint. -/
def resume_task (t : Task) : Except TaskError Task :=
  if t.state = .suspended then
    .ok { t with state := .resumed, checkpoint := none }
  else
    .error (.taskNotResumable t.state)

/-- Modelled from the spec: after a successful resume the worker picks
execution straight back up, so a `resumed` task immediately transitions
to `working`. -/
def continue_after_resume (t : Task) : Task :=
  if t.state = .resumed then { t with state := .working } else t

/-- Circuit breaker states (CLOSED, OPEN, HALF_OPEN). -/
inductive CircuitState
  | closed
  | opened
  | halfOpen
deriving DecidableEq, Repr

/-- Modelled from the spec: CircuitBreakerSettings (bindu/settings.py is
absent from the source tree; the defaults are documented in the
circuit-breaker report). -/
structure CircuitBreakerSettings where
  enabled : Bool
  failure_threshold : Nat
  recovery_timeout : Nat
  success_threshold : Nat
deriving DecidableEq, Repr

/-- Default configuration: the layer is disabled. -/
def defaultCircuitBreakerSettings : CircuitBreakerSettings :=
  ⟨false, 3, 30, 1⟩

/-- Modelled from the spec: per-operation circuit breaker instance
(bindu/utils/circuit_breaker.py is absent from the source tree). -/
structure CircuitBreaker where
  name : String
  failure_threshold : Nat
  recovery_timeout : Nat
  success_threshold : Nat
  state : CircuitState
  failure_count : Nat
  success_count : Nat
  opened_at : Nat
deriving DecidableEq, Repr

/-- Modelled from the spec: record one breaker failure.  In CLOSED the
consecutive failure counter increments and reaching the threshold trips
the breaker OPEN recording opened_at; any failure in HALF_OPEN
immediately reopens the breaker. -/
def CircuitBreaker.record_failure (cb : CircuitBreaker) (now : Nat) : CircuitBreaker :=
  if cb.state = .halfOpen then
    { cb with state := .opened, failure_count := cb.failure_count + 1,
              opened_at := now }
  else if cb.state = .closed ∧ cb.failure_count + 1 ≥ cb.failure_threshold then
    { cb with state := .opened, failure_count := cb.failure_count + 1,
              opened_at := now }
  else
    { cb with failure_count := cb.failure_count + 1 }

/-- Modelled from the spec: record one breaker success.  In CLOSED the
consecutive failure counter resets; in HALF_OPEN the success counter
increments and reaching the success threshold closes the breaker with
counters reset. -/
def CircuitBreaker.record_success (cb : CircuitBreaker) : CircuitBreaker :=
  if cb.state = .halfOpen then
    if cb.success_count + 1 ≥ cb.success_threshold then
      { cb with state := .closed, failure_count := 0, success_count := 0 }
    else
      { cb with success_count := cb.success_count + 1 }
  else if cb.state = .closed then
    { cb with failure_count := 0 }
  else cb

/-- Modelled from the spec: the admission check at the start of
CircuitBreaker.call, performed under the breaker's lock.  OPEN with the
recovery timeout elapsed transitions to HALF_OPEN and admits the call;
OPEN otherwise rejects it, returning the retry_after hint; CLOSED and
HALF_OPEN admit. -/
def CircuitBreaker.admission (cb : CircuitBreaker) (now : Nat) :
    Option Nat × CircuitBreaker :=
  if cb.state = .opened then
    if cb.opened_at + cb.recovery_timeout ≤ now then
      (none, { cb with state := .halfOpen, success_count := 0 })
    else
      (some (cb.opened_at + cb.recovery_timeout - now), cb)
  else (none, cb)

/-- The typed errors produced by a guarded call: the circuit-open
rejection carrying the operation name and a retry_after hint, or the
wrapped function's own error passed through. -/
inductive CBError
  | circuitOpen (operation_name : String) (retry_after : Nat)
  | wrapped (e : String)
deriving DecidableEq, Repr

/-- Modelled from the spec: CircuitBreaker.call.  The wrapped function's
behavior for this call is given by `outcome`.  Returns the call result,
the updated breaker and the number of times the wrapped function was
invoked (0 when the call is rejected). -/
def CircuitBreaker.call {α : Type} (cb : CircuitBreaker) (now : Nat)
    (outcome : Except String α) : Except CBError α × CircuitBreaker × Nat :=
  match cb.admission now with
  | (some ra, cb2) => (.error (.circuitOpen cb.name ra), cb2, 0)
  | (none, cb2) =>
      match outcome with
      | .ok a => (.ok a, cb2.record_success, 1)
      | .error e => (.error (.wrapped e), cb2.record_failure now, 1)

/-- Folds a sequence of guarded calls whose wrapped function fails each
time, at the given sequence of times. -/
def afterFailures (cb : CircuitBreaker) (ts : List Nat) : CircuitBreaker :=
  ts.foldl (fun c now => (c.call now (Except.error "f" : Except String Unit)).2.1) cb

/-- True exactly when a call arriving at `now` would be admitted through
the OPEN to HALF_OPEN probe transition. -/
def CircuitBreaker.probeAdmission (cb : CircuitBreaker) (now : Nat) : Bool :=
  decide (cb.state = .opened ∧ cb.opened_at + cb.recovery_timeout ≤ now)

/-- Modelled from the spec: the Tenacity retry loop with bounded
attempts.  The i-th attempt's outcome is `f i`; the loop stops at the
first success.  Returns whether the loop succeeded and the running
attempt counter after it finished. -/
def retryRun (f : Nat → Bool) : Nat → Nat → Bool × Nat
  | 0, used => (false, used)
  | n + 1, used =>
      if f used then (true, used + 1) else retryRun f n (used + 1)

/-- Result of one guarded call through the resilience layer. -/
inductive GuardedResult
  | ok
  | failedAllRetries
  | rejected (retry_after : Nat)
deriving DecidableEq, Repr

/-- Modelled from the spec: the wrapper pattern of the retry decorators
with the breaker enabled — the circuit breaker guards the entire retry
loop.  A rejection consumes zero retry attempts; an admitted call runs
the full retry loop and records one breaker success or exactly one
breaker failure according to the loop's overall result.  Returns the
result, the updated breaker and the retry attempts consumed. -/
def guardedRetryCall (cb : CircuitBreaker) (now : Nat) (f : Nat → Bool)
    (maxAttempts : Nat) : GuardedResult × CircuitBreaker × Nat :=
  match cb.admission now with
  | (some ra, cb2) => (.rejected ra, cb2, 0)
  | (none, cb2) =>
      let r := retryRun f maxAttempts 0
      if r.1 then (.ok, cb2.record_success, r.2)
      else (.failedAllRetries, cb2.record_failure now, r.2)

/-- The retry layer of a system without the circuit breaker: the bare
retry loop. -/
def plainRetryCall (f : Nat → Bool) (maxAttempts : Nat) : GuardedResult × Nat :=
  let r := retryRun f maxAttempts 0
  (if r.1 then .ok else .failedAllRetries, r.2)

/-- Modelled from the spec: `_cb_guarded_call` applied to a retry
decorator's wrapper — when the circuit-breaker layer is disabled the
retry loop runs directly and the breaker is never consulted. -/
def cb_guarded_call (settings : CircuitBreakerSettings) (cb : CircuitBreaker)
    (now : Nat) (f : Nat → Bool) (maxAttempts : Nat) :
    GuardedResult × CircuitBreaker × Nat :=
  if settings.enabled then guardedRetryCall cb now f maxAttempts
  else
    let r := retryRun f maxAttempts 0
    (if r.1 then .ok else .failedAllRetries, cb, r.2)

/-- Modelled from the spec: `_cb_guarded_call` for a single wrapped
call — when disabled the wrapped function is invoked directly, exactly
once, and its result or error is returned unchanged. -/
def cb_guarded_single {α : Type} (settings : CircuitBreakerSettings)
    (cb : CircuitBreaker) (now : Nat) (outcome : Except String α) :
    Except CBError α × CircuitBreaker × Nat :=
  if settings.enabled then cb.call now outcome
  else
    match outcome with
    | .ok a => (.ok a, cb, 1)
    | .error e => (.error (.wrapped e), cb, 1)

/-- A server-sent event of the streaming pipeline: a TaskStatusUpdateEvent
or a TaskArtifactUpdateEvent, as documented in docs/STREAMING.md. -/
inductive Event
  | statusUpdate (task_id context_id : Nat) (state : TaskState) (final : Bool)
  | artifactUpdate (task_id context_id artifact_id : Nat) (name text : String)
      (append last_chunk : Bool)
deriving DecidableEq, Repr

/-- Whether an event is an artifact update marked last_chunk. -/
def Event.isLastChunk : Event → Bool
  | .artifactUpdate _ _ _ _ _ _ lc => lc
  | _ => false

/-- Whether an event is a status update marked final. -/
def Event.isFinalStatus : Event → Bool
  | .statusUpdate _ _ _ f => f
  | _ => false

/-- Whether an event is an artifact update. -/
def Event.isArtifactUpdate : Event → Bool
  | .artifactUpdate _ _ _ _ _ _ _ => true
  | _ => false

/-- The artifact identifier carried by an artifact-update event. -/
def Event.artifactId : Event → Option Nat
  | .artifactUpdate _ _ a _ _ _ _ => some a
  | _ => none

/-- The text carried by an artifact-update event. -/
def Event.chunkText : Event → Option String
  | .artifactUpdate _ _ _ _ s _ _ => some s
  | _ => none

/-- Modelled from the spec: atomic execution (`run`, §4.2).  The
external computation's total output is the concatenation of its chunk
sequence; the worker appends the agent reply to history, signs the final
content exactly once through the identity collaborator and persists the
completed record with one final artifact. -/
def runTask (sign : String → String) (t : Task) (aid : Nat)
    (chunks : List String) : Task :=
  { t with
      state := .completed,
      history := t.history ++ [⟨"agent", String.join chunks⟩],
      artifacts := t.artifacts ++
        [⟨aid, "streaming_response", sign (String.join chunks)⟩] }

/-- Modelled from the spec and docs/STREAMING.md: the chunk loop of the
streaming path.  Each generator yield is emitted immediately as one
artifact-update event carrying that chunk, append true and last_chunk
false, while the full text accumulates; no chunk is persisted.  Returns
the emitted events and the accumulated text. -/
def streamChunks (tid cid aid : Nat) (acc : String) :
    List String → List Event × String
  | [] => ([], acc)
  | c :: rest =>
      let r := streamChunks tid cid aid (acc ++ c) rest
      (.artifactUpdate tid cid aid "streaming_response" c true false :: r.1, r.2)

/-- Modelled from the spec and docs/STREAMING.md: the streaming
execution path (`stream`, §4.3).  Emits the working status event, one
artifact event per chunk, the empty last_chunk marker event, and the
final terminal status event; after the chunk sequence is exhausted the
accumulated content is signed once and persisted, together with the
completed state, through the same record construction as atomic
execution.  Returns the emitted events and the persisted final task. -/
def streamTask (sign : String → String) (t : Task) (aid : Nat)
    (chunks : List String) : List Event × Task :=
  let r := streamChunks t.id t.context_id aid "" chunks
  (.statusUpdate t.id t.context_id .working false ::
      r.1 ++
      [.artifactUpdate t.id t.context_id aid "streaming_response" "" true true,
       .statusUpdate t.id t.context_id .completed true],
   { t with
       state := .completed,
       history := t.history ++ [⟨"agent", r.2⟩],
       artifacts := t.artifacts ++ [⟨aid, "streaming_response", sign r.2⟩] })

/-- The statement of claim C4 as written, at given inputs: the stream
emits exactly one artifact event marked last_chunk, every artifact event
bears the shared artifact identifier, the last_chunk event carries the
final identity-signed content, and exactly one terminal status event
marked final follows. -/
def claimC4Statement (sign : String → String) (t : Task) (aid : Nat)
    (chunks : List String) : Prop :=
  ((streamTask sign t aid chunks).1.filter (fun e => e.isLastChunk)).length = 1 ∧
  (∀ e ∈ (streamTask sign t aid chunks).1,
      e.isArtifactUpdate = true → e.artifactId = some aid) ∧
  (∀ e ∈ (streamTask sign t aid chunks).1,
      e.isLastChunk = true → e.chunkText = some (sign (String.join chunks))) ∧
  ((streamTask sign t aid chunks).1.filter (fun e => e.isFinalStatus)).length = 1

/-- Modelled from the spec and docs/STREAMING.md error resilience: a
streaming run whose computation fails after `delivered` chunks.  The
failed terminal status event is emitted to the already-connected caller;
the attempt to persist the failed record may itself fail (persistOk
false), in which case no record is written and the persistence failure
is logged, but the emitted event sequence is unchanged. -/
def streamTaskWithError (t : Task) (aid : Nat) (delivered : List String)
    (err : String) (persistOk : Bool) :
    List Event × Option Task × List String :=
  let r := streamChunks t.id t.context_id aid "" delivered
  ((.statusUpdate t.id t.context_id .working false :: r.1) ++
      [.statusUpdate t.id t.context_id .failed true],
   if persistOk then some { t with state := .failed } else none,
   if persistOk then []
   else ["failed to persist failure of task " ++ toString t.id ++ ": " ++ err])

/-- Embedded from the source: the TaskPoller constructor's default
maxAttempts argument in the static JS API client. -/
def pollerDefaultMaxAttempts : Nat := 300

/-- Embedded from the source: the task states on which pollTask stops
polling and calls onComplete. -/
def completeStates : List String :=
  ["completed", "failed", "canceled", "input-required"]

/-- The observable outcome of a poll: onComplete with the reported final
state, or onError with the polling-timeout error. -/
inductive PollOutcome
  | complete (state : String)
  | timeout
deriving DecidableEq, Repr

/-- Embedded from the source: the recursive poll closure of
TaskPoller.pollTask.  `getState i` is the state reported by the i-th
getTask call (0-based); `attempts` is the counter before the increment
at the top of the closure.  Returns the outcome and the total number of
getTask calls performed. -/
def pollLoop (getState : Nat → String) (maxAttempts : Nat)
    (attempts : Nat) : PollOutcome × Nat :=
  if completeStates.contains (getState attempts) then
    (.complete (getState attempts), attempts + 1)
  else if maxAttempts ≤ attempts + 1 then (.timeout, attempts + 1)
  else pollLoop getState maxAttempts (attempts + 1)
termination_by maxAttempts - attempts
decreasing_by omega

/-- Embedded from the source: TaskPoller.pollTask starts the poll
closure with the attempt counter at zero. -/
def pollTask (getState : Nat → String) (maxAttempts : Nat) :
    PollOutcome × Nat :=
  pollLoop getState maxAttempts 0

theorem terminal_no_edges :
    ∀ s target, isTerminal s = true → legalEdge s target = false := by
  decide

theorem admission_not_opened (cb : CircuitBreaker) (now : Nat)
    (hs : cb.state ≠ .opened) : cb.admission now = (none, cb) := by
  rw [CircuitBreaker.admission, if_neg hs]

theorem admission_open_waiting (cb : CircuitBreaker) (now : Nat)
    (hs : cb.state = .opened)
    (hlt : now < cb.opened_at + cb.recovery_timeout) :
    cb.admission now = (some (cb.opened_at + cb.recovery_timeout - now), cb) := by
  rw [CircuitBreaker.admission, if_pos hs, if_neg (by omega)]

theorem admission_open_elapsed (cb : CircuitBreaker) (now : Nat)
    (hs : cb.state = .opened)
    (hge : cb.opened_at + cb.recovery_timeout ≤ now) :
    cb.admission now = (none, { cb with state := .halfOpen, success_count := 0 }) := by
  rw [CircuitBreaker.admission, if_pos hs, if_pos hge]

theorem call_error_step {α : Type} (cb : CircuitBreaker) (now : Nat) (e : String)
    (hs : cb.state ≠ .opened) :
    cb.call now (Except.error e : Except String α)
      = (.error (.wrapped e), cb.record_failure now, 1) := by
  rw [CircuitBreaker.call, admission_not_opened cb now hs]

theorem record_failure_below (cb : CircuitBreaker) (now : Nat)
    (hs : cb.state = .closed)
    (hlt : cb.failure_count + 1 < cb.failure_threshold) :
    cb.record_failure now = { cb with failure_count := cb.failure_count + 1 } := by
  rw [CircuitBreaker.record_failure, if_neg (by rw [hs]; simp),
      if_neg (by simp; omega)]

theorem record_failure_trips (cb : CircuitBreaker) (now : Nat)
    (hs : cb.state = .closed)
    (hge : cb.failure_count + 1 ≥ cb.failure_threshold) :
    cb.record_failure now
      = { cb with state := .opened, failure_count := cb.failure_count + 1,
                  opened_at := now } := by
  rw [CircuitBreaker.record_failure, if_neg (by rw [hs]; simp),
      if_pos ⟨hs, hge⟩]

theorem afterFailures_opens :
    ∀ (ts : List Nat) (cb : CircuitBreaker) (hne : ts ≠ []),
      cb.state = .closed →
      cb.failure_count + ts.length = cb.failure_threshold →
      (afterFailures cb ts).state = .opened ∧
      (afterFailures cb ts).opened_at = ts.getLast hne := by
  intro ts
  induction ts with
  | nil => intro cb hne; exact absurd rfl hne
  | cons x rest ih =>
    intro cb _ hs hk
    have hstep : afterFailures cb (x :: rest)
        = afterFailures (cb.record_failure x) rest := by
      rw [afterFailures, List.foldl_cons,
          call_error_step cb x "f" (by rw [hs]; simp)]
      rfl
    cases rest with
    | nil =>
      have hge : cb.failure_count + 1 ≥ cb.failure_threshold := by
        simp at hk; omega
      rw [hstep, record_failure_trips cb x hs hge]
      exact ⟨rfl, rfl⟩
    | cons y rest2 =>
      have hlt : cb.failure_count + 1 < cb.failure_threshold := by
        simp at hk; omega
      rw [hstep, record_failure_below cb x hs hlt]
      have := ih { cb with failure_count := cb.failure_count + 1 }
        (by simp) (by simp [hs]) (by simp at hk ⊢; omega)
      simpa using this

theorem record_failure_count (cb : CircuitBreaker) (now : Nat) :
    (cb.record_failure now).failure_count = cb.failure_count + 1 := by
  rw [CircuitBreaker.record_failure]
  split
  · rfl
  · split
    · rfl
    · rfl

theorem record_success_count_le (cb : CircuitBreaker) :
    cb.record_success.failure_count ≤ cb.failure_count := by
  rw [CircuitBreaker.record_success]
  split
  · split
    · exact Nat.zero_le _
    · exact Nat.le_refl _
  · split
    · exact Nat.zero_le _
    · exact Nat.le_refl _

theorem admission_snd_counts (cb : CircuitBreaker) (now : Nat) :
    (cb.admission now).2.failure_count = cb.failure_count := by
  rw [CircuitBreaker.admission]
  split
  · split
    · rfl
    · rfl
  · rfl

theorem admission_fst_none (cb : CircuitBreaker) (now : Nat)
    (h : ¬(cb.state = .opened ∧ now < cb.opened_at + cb.recovery_timeout)) :
    (cb.admission now).1 = none := by
  rw [CircuitBreaker.admission]
  by_cases hs : cb.state = .opened
  · rw [if_pos hs, if_pos (by push_neg at h; have := h hs; omega)]
  · rw [if_neg hs]

theorem retryRun_exhausts (f : Nat → Bool) :
    ∀ (n used : Nat), (retryRun f n used).1 = false →
      (retryRun f n used).2 = used + n := by
  intro n
  induction n with
  | zero => intro used _; rfl
  | succ n ih =>
    intro used h
    rw [retryRun] at h ⊢
    by_cases hf : f used
    · rw [if_pos hf] at h
      simp at h
    · rw [if_neg hf] at h ⊢
      rw [ih (used + 1) h]
      omega

/-- Claim C2: after failure_threshold consecutive recorded failures the
breaker is OPEN; every call made while OPEN before recovery_timeout has
elapsed since opened_at is rejected with a typed circuit-open error
carrying a positive retry_after hint, without invoking the wrapped
function and without changing the breaker; and the first call once the
timeout has elapsed is admitted exactly once as the HALF_OPEN probe —
the admitting call itself moves the breaker out of OPEN under the
breaker's lock, so no concurrent caller can take the probe admission
again for the same recovery cycle. -/
theorem circuit_breaker_trips_rejects_and_single_probe
    (cb : CircuitBreaker) :
    (∀ (ts : List Nat) (hne : ts ≠ []),
        cb.state = .closed → cb.failure_count = 0 →
        ts.length = cb.failure_threshold →
        (afterFailures cb ts).state = .opened ∧
        (afterFailures cb ts).opened_at = ts.getLast hne) ∧
    (∀ (now : Nat) (outcome : Except String Unit),
        cb.state = .opened → now < cb.opened_at + cb.recovery_timeout →
        cb.call now outcome
          = (.error (.circuitOpen cb.name
                (cb.opened_at + cb.recovery_timeout - now)), cb, 0) ∧
        0 < cb.opened_at + cb.recovery_timeout - now) ∧
    (∀ (now : Nat) (outcome : Except String Unit),
        cb.probeAdmission now = true →
        (cb.admission now).2.state = .halfOpen ∧
        (cb.call now outcome).2.2 = 1 ∧
        (0 < cb.recovery_timeout →
          (cb.call now outcome).2.1.probeAdmission now = false)) := by
  refine ⟨?_, ?_, ?_⟩
  · intro ts hne hs hc hlen
    exact afterFailures_opens ts cb hne hs (by omega)
  · intro now outcome hs hlt
    refine ⟨?_, by omega⟩
    rw [CircuitBreaker.call, admission_open_waiting cb now hs hlt]
  · intro now outcome hp
    rw [CircuitBreaker.probeAdmission, decide_eq_true_eq] at hp
    obtain ⟨hs, hge⟩ := hp
    have hadm := admission_open_elapsed cb now hs hge
    refine ⟨by rw [hadm], ?_, ?_⟩
    · cases outcome with
      | ok a => rw [CircuitBreaker.call, hadm]
      | error e => rw [CircuitBreaker.call, hadm]
    · intro hrt
      cases outcome with
      | ok a =>
        rw [CircuitBreaker.call, hadm]
        simp only [CircuitBreaker.probeAdmission, CircuitBreaker.record_success]
        split
        · split
          · simp
          · simp
        · split
          · simp
          · simp_all
      | error e =>
        rw [CircuitBreaker.call, hadm]
        simp only [CircuitBreaker.probeAdmission, CircuitBreaker.record_failure]
        split
        · simp
          omega
        · simp_all

theorem circuit_breaker_trips_rejects_and_single_probe_witness :
    ((afterFailures ⟨"storage:save_task", 3, 30, 1, .closed, 0, 0, 0⟩
        [10, 11, 12]).state = .opened ∧
     (afterFailures ⟨"storage:save_task", 3, 30, 1, .closed, 0, 0, 0⟩
        [10, 11, 12]).opened_at = [10, 11, 12].getLast (by decide)) ∧
    (CircuitBreaker.call ⟨"storage:save_task", 3, 30, 1, .opened, 3, 0, 12⟩ 13
        (Except.error "e" : Except String Unit)
      = (.error (.circuitOpen "storage:save_task" 29),
         ⟨"storage:save_task", 3, 30, 1, .opened, 3, 0, 12⟩, 0) ∧
     0 < (29 : Nat)) ∧
    ((CircuitBreaker.admission
        ⟨"storage:save_task", 3, 30, 1, .opened, 3, 0, 12⟩ 42).2.state
        = .halfOpen ∧
     (CircuitBreaker.call ⟨"storage:save_task", 3, 30, 1, .opened, 3, 0, 12⟩ 42
        (Except.error "e" : Except String Unit)).2.2 = 1 ∧
     ((CircuitBreaker.call ⟨"storage:save_task", 3, 30, 1, .opened, 3, 0, 12⟩ 42
        (Except.error "e" : Except String Unit)).2.1.probeAdmission 42 = false)) :=
  ⟨(circuit_breaker_trips_rejects_and_single_probe
      ⟨"storage:save_task", 3, 30, 1, .closed, 0, 0, 0⟩).1
      [10, 11, 12] (by decide) rfl rfl rfl,
   (circuit_breaker_trips_rejects_and_single_probe
      ⟨"storage:save_task", 3, 30, 1, .opened, 3, 0, 12⟩).2.1
      13 (Except.error "e") rfl (by decide),
   (circuit_breaker_trips_rejects_and_single_probe
      ⟨"storage:save_task", 3, 30, 1, .opened, 3, 0, 12⟩).2.2
      42 (Except.error "e") (by decide) |>.1,
   (circuit_breaker_trips_rejects_and_single_probe
      ⟨"storage:save_task", 3, 30, 1, .opened, 3, 0, 12⟩).2.2
      42 (Except.error "e") (by decide) |>.2.1,
   (circuit_breaker_trips_rejects_and_single_probe
      ⟨"storage:save_task", 3, 30, 1, .opened, 3, 0, 12⟩).2.2
      42 (Except.error "e") (by decide) |>.2.2 (by decide)⟩

/-- Claim C5: the circuit breaker wraps the entire retry loop.  While
OPEN before the recovery timeout the retry loop is never entered (zero
attempts consumed, breaker unchanged); an admitted guarded call records
at most one breaker failure; a success within the attempts records no
failure; and the failure counter increments exactly when all retry
attempts are exhausted, in which case the full attempt budget was
consumed. -/
theorem breaker_wraps_entire_retry_loop
    (cb : CircuitBreaker) (now : Nat) (f : Nat → Bool) (maxAttempts : Nat) :
    (cb.state = .opened → now < cb.opened_at + cb.recovery_timeout →
        guardedRetryCall cb now f maxAttempts
          = (.rejected (cb.opened_at + cb.recovery_timeout - now), cb, 0)) ∧
    ((guardedRetryCall cb now f maxAttempts).2.1.failure_count
        ≤ cb.failure_count + 1) ∧
    ((retryRun f maxAttempts 0).1 = true →
        (guardedRetryCall cb now f maxAttempts).2.1.failure_count
          ≤ cb.failure_count) ∧
    ((guardedRetryCall cb now f maxAttempts).2.1.failure_count
          = cb.failure_count + 1 →
        (retryRun f maxAttempts 0).1 = false ∧
        (guardedRetryCall cb now f maxAttempts).2.2 = maxAttempts) := by
  by_cases hrej : cb.state = .opened ∧ now < cb.opened_at + cb.recovery_timeout
  · obtain ⟨hs, hlt⟩ := hrej
    have hg : guardedRetryCall cb now f maxAttempts
        = (.rejected (cb.opened_at + cb.recovery_timeout - now), cb, 0) := by
      rw [guardedRetryCall, admission_open_waiting cb now hs hlt]
    refine ⟨fun _ _ => hg, ?_, ?_, ?_⟩
    · rw [hg]; exact Nat.le_succ _
    · intro _; rw [hg]
    · intro hcount; rw [hg] at hcount; simp at hcount
  · have h1 : (cb.admission now).1 = none := admission_fst_none cb now hrej
    have hpair : cb.admission now = (none, (cb.admission now).2) := by
      cases he : cb.admission now with
      | mk o c2 => rw [he] at h1; simp at h1; rw [h1]
    have hg : guardedRetryCall cb now f maxAttempts
        = (if (retryRun f maxAttempts 0).1
            then (.ok, (cb.admission now).2.record_success,
                  (retryRun f maxAttempts 0).2)
            else (.failedAllRetries, (cb.admission now).2.record_failure now,
                  (retryRun f maxAttempts 0).2)) := by
      rw [guardedRetryCall, hpair]
    have hcnt := admission_snd_counts cb now
    refine ⟨fun hs hlt => absurd ⟨hs, hlt⟩ hrej, ?_, ?_, ?_⟩
    · rw [hg]
      by_cases hr : (retryRun f maxAttempts 0).1
      · rw [if_pos hr]
        have := record_success_count_le (cb.admission now).2
        simp only []
        omega
      · rw [if_neg hr]
        have := record_failure_count (cb.admission now).2 now
        simp only []
        omega
    · intro hr
      rw [hg, if_pos hr]
      have := record_success_count_le (cb.admission now).2
      simp only []
      omega
    · intro hcount
      rw [hg] at hcount
      by_cases hr : (retryRun f maxAttempts 0).1
      · rw [if_pos hr] at hcount
        have := record_success_count_le (cb.admission now).2
        simp only [] at hcount
        omega
      · rw [if_neg hr] at hcount
        refine ⟨by simpa using hr, ?_⟩
        rw [hg, if_neg hr]
        have := retryRun_exhausts f maxAttempts 0 (by simpa using hr)
        simpa using this

theorem breaker_wraps_entire_retry_loop_witness :
    guardedRetryCall ⟨"worker:run_task", 3, 30, 1, .opened, 3, 0, 12⟩ 13
        (fun _ => false) 2
      = (.rejected 29, ⟨"worker:run_task", 3, 30, 1, .opened, 3, 0, 12⟩, 0) ∧
    ((retryRun (fun _ => false) 2 0).1 = false ∧
     (guardedRetryCall ⟨"worker:run_task", 3, 30, 1, .closed, 0, 0, 0⟩ 5
        (fun _ => false) 2).2.2 = 2) :=
  ⟨(breaker_wraps_entire_retry_loop
      ⟨"worker:run_task", 3, 30, 1, .opened, 3, 0, 12⟩ 13 (fun _ => false) 2).1
      rfl (by decide),
   (breaker_wraps_entire_retry_loop
      ⟨"worker:run_task", 3, 30, 1, .closed, 0, 0, 0⟩ 5 (fun _ => false) 2).2.2.2
      (by decide)⟩

/-- Claim C8: with the circuit-breaker layer disabled — the default
configuration — every guarded call passes straight through to the
wrapped function: the retry behavior, returned result and raised errors
are identical to a system without the resilience layer, and the breaker
is never consulted nor modified. -/
theorem disabled_breaker_is_pure_passthrough {α : Type}
    (settings : CircuitBreakerSettings) (cb : CircuitBreaker) (now : Nat)
    (f : Nat → Bool) (maxAttempts : Nat) (outcome : Except String α) :
    defaultCircuitBreakerSettings.enabled = false ∧
    (settings.enabled = false →
        cb_guarded_call settings cb now f maxAttempts
          = ((plainRetryCall f maxAttempts).1, cb,
             (plainRetryCall f maxAttempts).2)) ∧
    (settings.enabled = false →
        (cb_guarded_single settings cb now outcome).2.1 = cb ∧
        (cb_guarded_single settings cb now outcome).2.2 = 1 ∧
        (∀ a, outcome = .ok a →
            (cb_guarded_single settings cb now outcome).1 = .ok a) ∧
        (∀ e, outcome = .error e →
            (cb_guarded_single settings cb now outcome).1
              = .error (.wrapped e))) := by
  refine ⟨rfl, ?_, ?_⟩
  · intro h
    rw [cb_guarded_call, if_neg (by simp [h])]
    simp [plainRetryCall]
  · intro h
    rw [cb_guarded_single.eq_def, if_neg (by simp [h])]
    cases outcome with
    | ok a => exact ⟨rfl, rfl, fun b hb => by injection hb with hb; rw [hb],
        fun e he => by simp at he⟩
    | error e => exact ⟨rfl, rfl, fun b hb => by simp at hb,
        fun e2 he => by injection he with he; rw [he]⟩

theorem disabled_breaker_is_pure_passthrough_witness :
    cb_guarded_call ⟨false, 3, 30, 1⟩ ⟨"api:call", 3, 30, 1, .closed, 0, 0, 0⟩ 0
        (fun i => i = 1) 3
      = ((plainRetryCall (fun i => i = 1) 3).1,
         ⟨"api:call", 3, 30, 1, .closed, 0, 0, 0⟩,
         (plainRetryCall (fun i => i = 1) 3).2) ∧
    (cb_guarded_single ⟨false, 3, 30, 1⟩
        ⟨"api:call", 3, 30, 1, .closed, 0, 0, 0⟩ 0
        (Except.ok 7 : Except String Nat)).1 = .ok 7 :=
  ⟨(disabled_breaker_is_pure_passthrough ⟨false, 3, 30, 1⟩
      ⟨"api:call", 3, 30, 1, .closed, 0, 0, 0⟩ 0 (fun i => i = 1) 3
      (Except.ok 7 : Except String Nat)).2.1 rfl,
   ((disabled_breaker_is_pure_passthrough ⟨false, 3, 30, 1⟩
      ⟨"api:call", 3, 30, 1, .closed, 0, 0, 0⟩ 0 (fun i => i = 1) 3
      (Except.ok 7 : Except String Nat)).2.2 rfl).2.2.1 7 rfl⟩

/-- Claim C3: a task's state changes only along the legal transition
edges of §4.1; terminal states admit no further transition; an illegal
transition attempt returns a typed error and produces no modified
record. -/
theorem task_state_transitions_only_along_legal_edges
    (t : Task) (target : TaskState) :
    (∀ t', applyTransition t target = .ok t' →
        legalEdge t.state target = true ∧ t'.state = target ∧
        t'.id = t.id ∧ t'.history = t.history ∧ t'.artifacts = t.artifacts) ∧
    (isTerminal t.state = true →
        applyTransition t target = .error (.illegalTransition t.state target)) ∧
    (legalEdge t.state target = false →
        applyTransition t target = .error (.illegalTransition t.state target)) := by
  refine ⟨?_, ?_, ?_⟩
  · intro t' h
    rw [applyTransition] at h
    by_cases he : legalEdge t.state target = true
    · rw [if_pos he] at h
      injection h with h
      subst h
      exact ⟨he, rfl, rfl, rfl, rfl⟩
    · rw [if_neg he] at h
      simp at h
  · intro hterm
    rw [applyTransition, if_neg (by simp [terminal_no_edges t.state target hterm])]
  · intro he
    rw [applyTransition, if_neg (by simp [he])]

theorem task_state_transitions_only_along_legal_edges_witness :
    applyTransition ⟨0, 0, .completed, [], [], none⟩ .working
      = .error (.illegalTransition .completed .working) :=
  (task_state_transitions_only_along_legal_edges
    ⟨0, 0, .completed, [], [], none⟩ .working).2.1 rfl

/-- Claim C6: pausing a non-pausable task fails with TaskNotPausable and
resuming a non-suspended task fails with TaskNotResumable; the second of
two consecutive resumes fails with TaskNotResumable and pausing a
completed task fails with TaskNotPausable; the failing operation yields
no modified record. -/
theorem illegal_pause_resume_fail_with_typed_error
    (t : Task) (now : Nat) :
    (isPausable t.state = false →
        pause_task t now = .error (.taskNotPausable t.state)) ∧
    (t.state ≠ .suspended →
        resume_task t = .error (.taskNotResumable t.state)) ∧
    (∀ t', resume_task t = .ok t' →
        resume_task t' = .error (.taskNotResumable .resumed)) ∧
    (t.state = .completed →
        pause_task t now = .error (.taskNotPausable .completed)) := by
  refine ⟨?_, ?_, ?_, ?_⟩
  · intro h
    rw [pause_task, if_neg (by simp [h])]
  · intro h
    rw [resume_task, if_neg h]
  · intro t' h
    rw [resume_task] at h
    by_cases hs : t.state = .suspended
    · rw [if_pos hs] at h
      injection h with h
      subst h
      simp [resume_task]
    · rw [if_neg hs] at h
      simp at h
  · intro h
    simp [pause_task, h, isPausable]

theorem illegal_pause_resume_fail_with_typed_error_witness :
    resume_task ⟨1, 1, .resumed, [], [], none⟩
        = .error (.taskNotResumable .resumed) ∧
    pause_task ⟨2, 2, .completed, [], [], none⟩ 5
        = .error (.taskNotPausable .completed) :=
  ⟨(illegal_pause_resume_fail_with_typed_error
      ⟨1, 1, .suspended, [], [], none⟩ 0).2.2.1
      ⟨1, 1, .resumed, [], [], none⟩ rfl,
   (illegal_pause_resume_fail_with_typed_error
      ⟨2, 2, .completed, [], [], none⟩ 5).2.2.2 rfl⟩

/-- Claim C7: pausing a task in pausable state S persists a checkpoint
recording paused_from_state = S, the full history, the partial artifacts
and the pause timestamp, and moves the task to suspended; a subsequent
resume moves it to resumed then working and clears the checkpoint, so no
checkpoint exists after resume. -/
theorem pause_persists_checkpoint_and_resume_clears_it
    (t : Task) (now : Nat) (h : isPausable t.state = true) :
    ∃ tp, pause_task t now = .ok tp ∧
      tp.state = .suspended ∧
      tp.checkpoint = some ⟨t.state, t.history, t.artifacts, now⟩ ∧
      ∃ tr, resume_task tp = .ok tr ∧
        tr.state = .resumed ∧ tr.checkpoint = none ∧
        (continue_after_resume tr).state = .working ∧
        (continue_after_resume tr).checkpoint = none := by
  rw [pause_task, if_pos (by simp [h])]
  refine ⟨_, rfl, rfl, rfl, ?_⟩
  rw [resume_task, if_pos rfl]
  refine ⟨_, rfl, rfl, rfl, ?_, ?_⟩
  · rw [continue_after_resume, if_pos rfl]
  · rw [continue_after_resume, if_pos rfl]

theorem pause_persists_checkpoint_and_resume_clears_it_witness :
    isPausable TaskState.working = true ∧
    ∃ tp, pause_task ⟨3, 3, .working, [⟨"user", "hi"⟩], [], none⟩ 7 = .ok tp ∧
      tp.state = .suspended ∧
      tp.checkpoint = some ⟨.working, [⟨"user", "hi"⟩], [], 7⟩ ∧
      ∃ tr, resume_task tp = .ok tr ∧
        tr.state = .resumed ∧ tr.checkpoint = none ∧
        (continue_after_resume tr).state = .working ∧
        (continue_after_resume tr).checkpoint = none :=
  ⟨rfl, pause_persists_checkpoint_and_resume_clears_it
    ⟨3, 3, .working, [⟨"user", "hi"⟩], [], none⟩ 7 rfl⟩

theorem streamChunks_text (tid cid aid : Nat) :
    ∀ (cs : List String) (acc : String),
      (streamChunks tid cid aid acc cs).2
        = cs.foldl (fun a c => a ++ c) acc := by
  intro cs
  induction cs with
  | nil => intro acc; rfl
  | cons c rest ih => intro acc; exact ih (acc ++ c)

theorem streamChunks_events_shape (tid cid aid : Nat) :
    ∀ (cs : List String) (acc : String) (e : Event),
      e ∈ (streamChunks tid cid aid acc cs).1 →
      ∃ c, e = .artifactUpdate tid cid aid "streaming_response" c true false := by
  intro cs
  induction cs with
  | nil => intro acc e h; simp [streamChunks] at h
  | cons c rest ih =>
    intro acc e h
    simp only [streamChunks, List.mem_cons] at h
    rcases h with h | h
    · exact ⟨c, h⟩
    · exact ih (acc ++ c) e h

theorem streamChunks_filter_none (tid cid aid : Nat) (p : Event → Bool)
    (hp : ∀ c, p (.artifactUpdate tid cid aid "streaming_response" c true false)
        = false) :
    ∀ (cs : List String) (acc : String),
      (streamChunks tid cid aid acc cs).1.filter p = [] := by
  intro cs
  induction cs with
  | nil => intro acc; rfl
  | cons c rest ih =>
    intro acc
    simp only [streamChunks, List.filter_cons, hp c, ih (acc ++ c)]
    simp

theorem getLast?_cons_append_two {α : Type} (x y z : α) (l : List α) :
    ((x :: l) ++ [y, z]).getLast? = some z := by
  have h : (x :: l) ++ [y, z] = ((x :: l) ++ [y]) ++ [z] := by simp
  rw [h, List.getLast?_concat]

/-- Claim C1: for an identical computation output sequence the streaming
path persists a final task record identical to the atomic path's — the
same final state, the same artifacts (the accumulated content signed
once) and the same message history; only the intermediate event stream
is additionally visible to the caller. -/
theorem stream_and_run_persist_identical_final_records
    (sign : String → String) (t : Task) (aid : Nat) (chunks : List String) :
    (streamTask sign t aid chunks).2 = runTask sign t aid chunks := by
  simp only [streamTask, runTask]
  rw [streamChunks_text t.id t.context_id aid chunks ""]
  rfl

/-- Claim C4 as written is false on the pipeline documented in
docs/STREAMING.md: the unique last_chunk artifact event is an empty-text
completion marker, not a carrier of the identity-signed final content.
Concretely, for the one-chunk stream "hi" under the signer prefixing
"signed:", the last_chunk event's text is "" and not "signed:hi". -/
theorem stream_last_chunk_carries_signed_content_counterexample :
    ¬ claimC4Statement (fun s => "signed:" ++ s)
        ⟨0, 0, .submitted, [], [], none⟩ 0 ["hi"] := by
  unfold claimC4Statement
  decide

/-- Claim C4 amended: after the chunk sequence is exhausted the stream
emits exactly one artifact event marked last_chunk; every artifact event
carries the shared artifact identifier; the last_chunk event is the
empty-text completion marker, while the identity-signed final content is
persisted in the final task record's artifact; and the stream ends with
exactly one terminal status event marked final. -/
theorem stream_emits_one_last_chunk_marker_then_final_status
    (sign : String → String) (t : Task) (aid : Nat) (chunks : List String) :
    ((streamTask sign t aid chunks).1.filter (fun e => e.isLastChunk)).length
        = 1 ∧
    (∀ e ∈ (streamTask sign t aid chunks).1,
        e.isArtifactUpdate = true → e.artifactId = some aid) ∧
    (∀ e ∈ (streamTask sign t aid chunks).1,
        e.isLastChunk = true → e.chunkText = some "") ∧
    ((streamTask sign t aid chunks).1.filter (fun e => e.isFinalStatus)).length
        = 1 ∧
    (streamTask sign t aid chunks).1.getLast?
        = some (.statusUpdate t.id t.context_id .completed true) ∧
    (streamTask sign t aid chunks).2.artifacts
        = t.artifacts ++ [⟨aid, "streaming_response", sign (String.join chunks)⟩] := by
  have hfilter1 := streamChunks_filter_none t.id t.context_id aid
    (fun e => e.isLastChunk) (fun c => rfl) chunks ""
  have hfilter2 := streamChunks_filter_none t.id t.context_id aid
    (fun e => e.isFinalStatus) (fun c => rfl) chunks ""
  refine ⟨?_, ?_, ?_, ?_, ?_, ?_⟩
  · simp only [streamTask, List.filter_cons, List.filter_append, hfilter1]
    simp [Event.isLastChunk, Event.isFinalStatus]
  · intro e he hart
    simp only [streamTask, List.mem_cons, List.mem_append, List.not_mem_nil,
      or_false] at he
    rcases he with (he | he) | (he | he)
    · subst he; simp [Event.isArtifactUpdate] at hart
    · obtain ⟨c, hc⟩ := streamChunks_events_shape t.id t.context_id aid
        chunks "" e he
      subst hc; rfl
    · subst he; rfl
    · subst he; simp [Event.isArtifactUpdate] at hart
  · intro e he hlc
    simp only [streamTask, List.mem_cons, List.mem_append, List.not_mem_nil,
      or_false] at he
    rcases he with (he | he) | (he | he)
    · subst he; simp [Event.isLastChunk] at hlc
    · obtain ⟨c, hc⟩ := streamChunks_events_shape t.id t.context_id aid
        chunks "" e he
      subst hc; simp [Event.isLastChunk] at hlc
    · subst he; rfl
    · subst he; simp [Event.isLastChunk] at hlc
  · simp only [streamTask, List.filter_cons, List.filter_append, hfilter2]
    simp [Event.isLastChunk, Event.isFinalStatus]
  · simp only [streamTask]
    exact getLast?_cons_append_two _ _ _ _
  · simp only [streamTask]
    rw [streamChunks_text t.id t.context_id aid chunks ""]
    rfl

theorem stream_emits_one_last_chunk_marker_then_final_status_witness :
    ((streamTask (fun s => "signed:" ++ s) ⟨9, 9, .submitted, [], [], none⟩ 4
        ["a", "b"]).1.filter (fun e => e.isLastChunk)).length = 1 ∧
    Event.chunkText (.artifactUpdate 9 9 4 "streaming_response" "" true true)
        = some "" ∧
    (streamTask (fun s => "signed:" ++ s) ⟨9, 9, .submitted, [], [], none⟩ 4
        ["a", "b"]).2.artifacts
        = [⟨4, "streaming_response", "signed:ab"⟩] :=
  ⟨(stream_emits_one_last_chunk_marker_then_final_status
      (fun s => "signed:" ++ s) ⟨9, 9, .submitted, [], [], none⟩ 4
      ["a", "b"]).1,
   (stream_emits_one_last_chunk_marker_then_final_status
      (fun s => "signed:" ++ s) ⟨9, 9, .submitted, [], [], none⟩ 4
      ["a", "b"]).2.2.1
      (.artifactUpdate 9 9 4 "streaming_response" "" true true)
      (by decide) (by decide),
   (stream_emits_one_last_chunk_marker_then_final_status
      (fun s => "signed:" ++ s) ⟨9, 9, .submitted, [], [], none⟩ 4
      ["a", "b"]).2.2.2.2.2⟩

/-- Claim C9: when the computation fails mid-stream the failed terminal
status event is still emitted to the already-connected caller, as the
stream's last event, even when the subsequent attempt to persist the
failed record itself fails; that persistence failure leaves nothing
persisted, produces a log entry, and does not change the emitted event
sequence. -/
theorem stream_failure_event_survives_persist_failure
    (t : Task) (aid : Nat) (delivered : List String) (err : String) :
    (streamTaskWithError t aid delivered err false).1
        = (streamTaskWithError t aid delivered err true).1 ∧
    (streamTaskWithError t aid delivered err false).1.getLast?
        = some (.statusUpdate t.id t.context_id .failed true) ∧
    (streamTaskWithError t aid delivered err false).2.1 = none ∧
    (streamTaskWithError t aid delivered err false).2.2 ≠ [] := by
  refine ⟨rfl, ?_, rfl, ?_⟩
  · simp only [streamTaskWithError]
    exact List.getLast?_concat _
  · simp [streamTaskWithError]

theorem stream_failure_event_survives_persist_failure_witness :
    (streamTaskWithError ⟨6, 6, .working, [], [], none⟩ 2 ["x"] "boom" false).1
        = (streamTaskWithError ⟨6, 6, .working, [], [], none⟩ 2 ["x"] "boom"
            true).1 ∧
    (streamTaskWithError ⟨6, 6, .working, [], [], none⟩ 2 ["x"] "boom"
        false).1.getLast? = some (.statusUpdate 6 6 .failed true) ∧
    (streamTaskWithError ⟨6, 6, .working, [], [], none⟩ 2 ["x"] "boom"
        false).2.1 = none ∧
    (streamTaskWithError ⟨6, 6, .working, [], [], none⟩ 2 ["x"] "boom"
        false).2.2 ≠ [] :=
  stream_failure_event_survives_persist_failure
    ⟨6, 6, .working, [], [], none⟩ 2 ["x"] "boom"

theorem pollLoop_complete_sound (getState : Nat → String) (M : Nat) :
    ∀ (k attempts : Nat), M ≤ attempts + k →
      ∀ s n, pollLoop getState M attempts = (.complete s, n) →
        completeStates.contains s = true ∧ s = getState (n - 1) := by
  intro k
  induction k with
  | zero =>
    intro attempts hk s n h
    rw [pollLoop] at h
    by_cases hc : completeStates.contains (getState attempts)
    · rw [if_pos hc] at h
      injection h with h1 h2
      injection h1 with h1
      subst h1; subst h2
      simpa using hc
    · rw [if_neg hc, if_pos (by omega)] at h
      simp at h
  | succ k ih =>
    intro attempts hk s n h
    rw [pollLoop] at h
    by_cases hc : completeStates.contains (getState attempts)
    · rw [if_pos hc] at h
      injection h with h1 h2
      injection h1 with h1
      subst h1; subst h2
      simpa using hc
    · rw [if_neg hc] at h
      by_cases hle : M ≤ attempts + 1
      · rw [if_pos hle] at h
        simp at h
      · rw [if_neg hle] at h
        exact ih (attempts + 1) (by omega) s n h

theorem pollLoop_times_out (getState : Nat → String) (M : Nat)
    (hall : ∀ i, i < M → completeStates.contains (getState i) = false) :
    ∀ (k attempts : Nat), M = attempts + k → attempts < M →
      pollLoop getState M attempts = (.timeout, M) := by
  intro k
  induction k with
  | zero => intro attempts hM hlt; omega
  | succ k ih =>
    intro attempts hM hlt
    rw [pollLoop, if_neg (by rw [hall attempts hlt]; simp)]
    by_cases hle : M ≤ attempts + 1
    · rw [if_pos hle]
      have : attempts + 1 = M := by omega
      rw [this]
    · rw [if_neg hle]
      exact ih (attempts + 1) (by omega) (by omega)

/-- Claim C10: TaskPoller.pollTask invokes onComplete only when the
reported task state is completed, failed, canceled or input-required; a
task whose reported state never enters this set is polled at most
maxAttempts times (default 300), after which onError receives the
polling-timeout error and onComplete is never invoked. -/
theorem taskpoller_completes_only_on_final_states_and_times_out
    (getState : Nat → String) (maxAttempts : Nat) :
    (∀ s n, pollTask getState maxAttempts = (.complete s, n) →
        completeStates.contains s = true ∧ s = getState (n - 1)) ∧
    (1 ≤ maxAttempts →
      (∀ i, i < maxAttempts → completeStates.contains (getState i) = false) →
        pollTask getState maxAttempts = (.timeout, maxAttempts)) ∧
    pollerDefaultMaxAttempts = 300 := by
  refine ⟨?_, ?_, rfl⟩
  · intro s n h
    exact pollLoop_complete_sound getState maxAttempts maxAttempts 0
      (by omega) s n h
  · intro h1 hall
    exact pollLoop_times_out getState maxAttempts hall maxAttempts 0
      (by omega) (by omega)

theorem taskpoller_completes_only_on_final_states_and_times_out_witness :
    pollTask (fun _ => "working") 3 = (.timeout, 3) ∧
    pollerDefaultMaxAttempts = 300 :=
  ⟨(taskpoller_completes_only_on_final_states_and_times_out
      (fun _ => "working") 3).2.1 (by decide) (fun i _ => by decide),
   (taskpoller_completes_only_on_final_states_and_times_out
      (fun _ => "working") 3).2.2⟩

end Bindu
